import Mathlib

/-
Verification of the Focus Desktop Simulator core (object picking, drag-plane
projection, scroll gestures, id allocation, state persistence fallback).

Embedding conventions:
- f32 values are modelled exactly over the rationals; machine-float rounding
  is idealized away, the control flow is translated verbatim.
- u64 is modelled as a natural number with explicit wrap at 2 ^ 64 where the
  source increments it.
- The comparison sqrt s < r on a nonnegative sqrt is written square-free as
  0 < r and s < r ^ 2, which is exactly equivalent.
- camera.rs, physics.rs and desk_object.rs are not under src/; definitions
  taken from them are marked Modelled from the spec. The world ray produced
  by the camera unprojection is passed to the event handlers as an input.
-/

set_option maxHeartbeats 1000000

namespace FocusDesk

/-- Vector with three rational components (glam Vec3 with f32 fields modelled
over the rationals). -/
structure Vec3 where
  x : ℚ
  y : ℚ
  z : ℚ
deriving DecidableEq

/-- Componentwise vector addition. -/
def Vec3.add (a b : Vec3) : Vec3 := ⟨a.x + b.x, a.y + b.y, a.z + b.z⟩

/-- Componentwise vector subtraction. -/
def Vec3.sub (a b : Vec3) : Vec3 := ⟨a.x - b.x, a.y - b.y, a.z - b.z⟩

/-- Scalar multiple of a vector. -/
def Vec3.smul (c : ℚ) (a : Vec3) : Vec3 := ⟨c * a.x, c * a.y, c * a.z⟩

/-- Dot product. -/
def Vec3.dot (a b : Vec3) : ℚ := a.x * b.x + a.y * b.y + a.z * b.z

/-- Squared Euclidean norm; length comparisons of the source are stated
square-free through this. -/
def Vec3.normSq (a : Vec3) : ℚ := a.x * a.x + a.y * a.y + a.z * a.z

/-- Object type enumeration (desk_object.rs is not under src/; the variant
list is the one used by ui.rs and the spec section 3). -/
inductive ObjectType where
  | clock
  | hourglass
  | lamp
  | notebook
  | paper
  | penHolder
  | books
  | magazine
  | metronome
  | coffee
  | plant
  | globe
  | trophy
  | photoFrame
  | laptop
deriving DecidableEq

/-- Modelled from the spec: desk_object.rs is not under src/. The value
returned by a desk object's collision_radius method is carried as per-object
data (spec section 3: a type-derived collision envelope); the picking and
drag logic under src/ only ever reads it. -/
structure DeskObject where
  id : ℕ
  objectType : ObjectType
  position : Vec3
  rotation : ℚ
  scale : ℚ
  mainColor : ℕ
  accentColor : ℕ
  collisionRadius : ℚ
deriving DecidableEq

/-- Modelled from the spec: desk_object.rs is not under src/. Base collision
radius per object type; the concrete table is not in src/, claims are
parametric in it. -/
def baseCollisionRadius (_t : ObjectType) : ℚ := 1 / 4

/-- Modelled from the spec: desk_object.rs is not under src/. Default main
color per type. -/
def defaultMainColor (_t : ObjectType) : ℕ := 0xFFFFFF

/-- Modelled from the spec: desk_object.rs is not under src/. Default accent
color per type. -/
def defaultAccentColor (_t : ObjectType) : ℕ := 0x1E293B

/-- Modelled from the spec: desk_object.rs is not under src/. DeskObject
construction from an assigned id, a type and a position, with a default
transform (identity yaw, unit scale); spec section 4.5. The spec allows the
rotation to be a quaternion or a yaw angle; it is modelled as a yaw angle,
under which composition with a rotation about the vertical axis is addition. -/
def DeskObject.new (oid : ℕ) (t : ObjectType) (pos : Vec3) : DeskObject :=
  ⟨oid, t, pos, 0, 1, defaultMainColor t, defaultAccentColor t, baseCollisionRadius t⟩

/-- Application state that gets persisted (state.rs lines 11-23). -/
structure AppState where
  version : ℕ
  objects : List DeskObject
  collision_radius_multiplier : ℚ
  collision_height_multiplier : ℚ
  next_object_id : ℕ
deriving DecidableEq

/-- Default AppState (state.rs lines 25-35). -/
def AppState.defaultState : AppState :=
  { version := 1
    objects := []
    collision_radius_multiplier := 1
    collision_height_multiplier := 1
    next_object_id := 1 }

/-- Outcome of the file-system interaction inside AppState::load (state.rs
lines 54-92): no data directory, missing file, unreadable file, unparsable
contents, or a successfully parsed state. The file system itself is external
to the embedding. -/
inductive LoadInput where
  | noDataDir
  | noFile
  | readError
  | parseError
  | parsed (s : AppState)

/-- AppState::load (state.rs lines 54-92): every failure path falls back to
the default state; a successful parse is returned unchanged. -/
def AppState.load : LoadInput → AppState
  | .noDataDir => AppState.defaultState
  | .noFile => AppState.defaultState
  | .readError => AppState.defaultState
  | .parseError => AppState.defaultState
  | .parsed s => s

/-- Size of the u64 value space; the next_object_id counter wraps here. -/
def u64Size : ℕ := 2 ^ 64

/-- AppState::next_id (state.rs lines 121-125): returns the current counter
and increments it (u64 increment, wrapping at 2 ^ 64). -/
def AppState.nextId (s : AppState) : ℕ × AppState :=
  (s.next_object_id, { s with next_object_id := (s.next_object_id + 1) % u64Size })

/-- AppState::add_object (state.rs lines 128-130): push onto the object list. -/
def AppState.addObject (o : DeskObject) (s : AppState) : AppState :=
  { s with objects := s.objects ++ [o] }

/-- Helper for AppState::remove_object: the source finds the position of the
first object with the given id and removes it; modelled as one recursion
returning the removed object (if any) and the remaining list. -/
def removeFirst (oid : ℕ) : List DeskObject → Option DeskObject × List DeskObject
  | [] => (none, [])
  | o :: rest =>
      if o.id = oid then (some o, rest)
      else
        let r := removeFirst oid rest
        (r.1, o :: r.2)

/-- AppState::remove_object (state.rs lines 132-139). -/
def AppState.removeObject (oid : ℕ) (s : AppState) : Option DeskObject × AppState :=
  let r := removeFirst oid s.objects
  (r.1, { s with objects := r.2 })

/-- AppState::get_object_mut followed by an in-place mutation f (state.rs
lines 147-149 plus the mutation at the call site): the first object whose id
matches is replaced by f applied to it; when none matches nothing changes. -/
def updateObject (oid : ℕ) (f : DeskObject → DeskObject) : List DeskObject → List DeskObject
  | [] => []
  | o :: rest => if o.id = oid then f o :: rest else o :: updateObject oid f rest

/-- AppState::clear_objects (state.rs lines 151-154). -/
def AppState.clearObjects (s : AppState) : AppState :=
  { s with objects := [] }

/-- Modelled from the spec: physics.rs is not under src/. The PhysicsEngine
owns the collision multiplier pair (spec section 3); the constructor defaults
are modelled as 1.0, matching the AppState defaults. -/
structure PhysicsEngine where
  collision_radius_multiplier : ℚ
  collision_height_multiplier : ℚ
deriving DecidableEq

/-- Modelled from the spec: physics.rs is not under src/. PhysicsEngine::new
with the default multipliers. -/
def PhysicsEngine.new : PhysicsEngine := ⟨1, 1⟩

/-- Modelled from the spec: physics.rs is not under src/. desk_surface_y is a
fixed constant derived from the desk configuration (spec section 4.3); the
desk thickness in config.rs is 0.1. -/
def deskSurfaceY : ℚ := 1 / 10

/-- Floating epsilon used by the parallel-ray test of ray_plane_intersection
(f32 machine epsilon, 2 ^ (-23)). -/
def f32Epsilon : ℚ := 1 / 2 ^ 23

/-- Absolute value of f32, written as a conditional so that it evaluates by
kernel reduction; equal to the mathematical absolute value. -/
def absQ (x : ℚ) : ℚ := if x < 0 then -x else x

/-- Modelled from the spec: physics.rs is not under src/. Spec section 4.1:
solve t from the plane equation; return none when the denominator is within
floating epsilon of zero or when t is negative, otherwise the point reached
by advancing the ray by t. -/
def rayPlaneIntersection (origin direction planePoint planeNormal : Vec3) : Option Vec3 :=
  let denom := direction.dot planeNormal
  if absQ denom < f32Epsilon then none
  else
    let t := ((planePoint.sub origin).dot planeNormal) / denom
    if t < 0 then none
    else some (origin.add (Vec3.smul t direction))

/-- Main application state, restricted to the fields the interaction logic
reads and writes (main.rs lines 91-114; the GPU handles are external). -/
structure App where
  state : AppState
  physics : PhysicsEngine
  mouse_position : ℚ × ℚ
  left_mouse_down : Bool
  dragging_object_id : Option ℕ
  shift_pressed : Bool
deriving DecidableEq

/-- Closest-approach parameter of an object center along a ray
(main.rs lines 456-457). -/
def tParam (rayO rayD : Vec3) (o : DeskObject) : ℚ :=
  (o.position.sub rayO).dot rayD

/-- Squared distance from the object center to the point of the ray at the
closest-approach parameter (main.rs lines 460-461, squared). -/
def perpDistSq (rayO rayD : Vec3) (o : DeskObject) : ℚ :=
  ((rayO.add (Vec3.smul (tParam rayO rayD o) rayD)).sub o.position).normSq

/-- Radius test of the picking loop (main.rs lines 462-464): dist < radius
with radius = collision_radius times 1.5; the f32 comparison
sqrt distSq < radius is written square-free as 0 < radius and
distSq < radius squared. -/
def pickHit (rayO rayD : Vec3) (o : DeskObject) : Prop :=
  0 < o.collisionRadius * (3 / 2) ∧
    perpDistSq rayO rayD o < (o.collisionRadius * (3 / 2)) ^ 2

instance (rayO rayD : Vec3) (o : DeskObject) : Decidable (pickHit rayO rayD o) := by
  unfold pickHit
  infer_instance

/-- Candidate test of the picking loop: not behind the origin and within the
slop radius (main.rs lines 457-464). -/
def isCandidate (rayO rayD : Vec3) (o : DeskObject) : Prop :=
  0 ≤ tParam rayO rayD o ∧ pickHit rayO rayD o

instance (rayO rayD : Vec3) (o : DeskObject) : Decidable (isCandidate rayO rayD o) := by
  unfold isCandidate
  infer_instance

/-- Comparison against the running best distance; the f32::MAX sentinel of
best_dist before any candidate is found is modelled as none, against which
every parameter wins. -/
def beats (t : ℚ) : Option (ℕ × ℚ) → Prop
  | none => True
  | some b => t < b.2

instance (t : ℚ) : (best : Option (ℕ × ℚ)) → Decidable (beats t best)
  | none => .isTrue trivial
  | some b => inferInstanceAs (Decidable (t < b.2))

/-- Loop of App::try_pick_object (main.rs lines 455-468). best_id and
best_dist start as None and f32::MAX and are always updated together, so
they are modelled as a single optional pair. -/
def pickLoop (rayO rayD : Vec3) : List DeskObject → Option (ℕ × ℚ) → Option (ℕ × ℚ)
  | [], best => best
  | o :: rest, best =>
      if isCandidate rayO rayD o ∧ beats (tParam rayO rayD o) best then
        pickLoop rayO rayD rest (some (o.id, tParam rayO rayD o))
      else
        pickLoop rayO rayD rest best

/-- App::try_pick_object (main.rs lines 438-471), with the world ray of the
current pointer position as input (the unprojection through the camera is in
camera.rs, not under src/). Returns the id stored into dragging_object_id. -/
def tryPickObject (rayO rayD : Vec3) (objs : List DeskObject) : Option ℕ :=
  (pickLoop rayO rayD objs none).map Prod.fst

/-- Clamp of f32 (used at main.rs lines 413 and 497-498): values below the
lower bound saturate to it, values above the upper bound saturate to it. -/
def clampQ (x lo hi : ℚ) : ℚ :=
  if x < lo then lo else if hi < x then hi else x

/-- App::update_drag (main.rs lines 473-502), with the pointer's world ray as
input: intersect the ray with the horizontal plane at desk_surface_y plus the
lift height 0.5 and move the drag target's x and z to the clamped
intersection; silently no-op when the intersection or the drag target is
missing. -/
def updateDrag (rayO rayD : Vec3) (a : App) : App :=
  match rayPlaneIntersection rayO rayD ⟨0, deskSurfaceY + 1 / 2, 0⟩ ⟨0, 1, 0⟩ with
  | none => a
  | some p =>
      match a.dragging_object_id with
      | none => a
      | some oid =>
          { a with state :=
              { a.state with objects :=
                  (updateObject oid (fun o =>
                    { o with position :=
                        ⟨clampQ p.x (-(9 / 2)) (9 / 2), o.position.y, clampQ p.z (-3) 3⟩ })
                    a.state.objects) } }

/-- App::add_object (main.rs lines 504-515); the two rand::random samples in
[0, 1) are taken as the inputs rx and rz. -/
def App.addObject (t : ObjectType) (rx rz : ℚ) (a : App) : App :=
  let idSt := a.state.nextId
  { a with state :=
      ((idSt.2).addObject
        (DeskObject.new idSt.1 t ⟨rx * 4 - 2, deskSurfaceY, rz * 3 - 3 / 2⟩)) }

/-- Mouse buttons distinguished by the event handler. -/
inductive MouseBtn where
  | left
  | right
  | middle

/-- Scroll delta of winit: line units, or pixel units divided by 50
(main.rs lines 406-409). -/
inductive ScrollDelta where
  | line (y : ℚ)
  | pixel (y : ℚ)

/-- Scroll amount extracted from a delta (main.rs lines 406-409). -/
def scrollOf : ScrollDelta → ℚ
  | .line y => y
  | .pixel y => y / 50

/-- Window events relevant to App::handle_event (main.rs lines 387-436).
The keyA event carries the two rand::random samples as data. -/
inductive WinEvent where
  | mouseInput (button : MouseBtn) (pressed : Bool)
  | cursorMoved (px py : ℚ)
  | mouseWheel (delta : ScrollDelta)
  | keyShift (pressed : Bool)
  | keyA (rx rz : ℚ)

/-- App::handle_event (main.rs lines 387-436), with the world ray of the
current pointer supplied alongside the event (screen_to_world_ray goes
through the camera; camera.rs is not under src/). Scroll with shift rescales
the drag target with clamping, scroll without shift composes a rotation
about the vertical axis, modelled as yaw-angle addition. -/
def handleEvent (rayO rayD : Vec3) (e : WinEvent) (a : App) : App :=
  match e with
  | .mouseInput button pressed =>
      match button with
      | .left =>
          if pressed then
            { a with left_mouse_down := true,
                     dragging_object_id := tryPickObject rayO rayD a.state.objects }
          else
            { a with left_mouse_down := false, dragging_object_id := none }
      | _ => a
  | .cursorMoved px py =>
      let a1 := { a with mouse_position := (px, py) }
      if a1.left_mouse_down && a1.dragging_object_id.isSome then
        updateDrag rayO rayD a1
      else a1
  | .mouseWheel delta =>
      let scroll := scrollOf delta
      match a.dragging_object_id with
      | none => a
      | some oid =>
          if a.shift_pressed then
            { a with state :=
                { a.state with objects :=
                    (updateObject oid
                      (fun o => { o with scale := clampQ (o.scale + scroll * (1 / 10)) (3 / 10) 3 })
                      a.state.objects) } }
          else
            { a with state :=
                { a.state with objects :=
                    (updateObject oid
                      (fun o => { o with rotation := scroll * (1 / 5) + o.rotation })
                      a.state.objects) } }
  | .keyShift pressed => { a with shift_pressed := pressed }
  | .keyA rx rz => a.addObject ObjectType.coffee rx rz

/-- Startup wiring of App::new (main.rs lines 270-298): load the persisted
state, construct the physics engine, and copy only
collision_radius_multiplier from the loaded state into it (main.rs line 273). -/
def appNew (inp : LoadInput) : App :=
  let st := AppState.load inp
  { state := st,
    physics := { PhysicsEngine.new with collision_radius_multiplier := st.collision_radius_multiplier },
    mouse_position := (0, 0),
    left_mouse_down := false,
    dragging_object_id := none,
    shift_pressed := false }

/-- Session-level operations on the object store: add (with the two random
samples of App::add_object as data), remove by id, clear all. -/
inductive SessionOp where
  | add (t : ObjectType) (rx rz : ℚ)
  | remove (oid : ℕ)
  | clear

/-- Apply one session operation (App::add_object, AppState::remove_object,
AppState::clear_objects at their call sites). -/
def applyOp (a : App) : SessionOp → App
  | .add t rx rz => a.addObject t rx rz
  | .remove oid => { a with state := (a.state.removeObject oid).2 }
  | .clear => { a with state := a.state.clearObjects }

/-- Run a list of session operations in order. -/
def runOps (a : App) : List SessionOp → App
  | [] => a
  | op :: rest => runOps (applyOp a op) rest

/-- Ids handed out by AppState::next_id over a run of session operations, in
order of assignment. -/
def assignedIds (a : App) : List SessionOp → List ℕ
  | [] => []
  | .add t rx rz :: rest => a.state.next_object_id :: assignedIds (applyOp a (.add t rx rz)) rest
  | .remove oid :: rest => assignedIds (applyOp a (.remove oid)) rest
  | .clear :: rest => assignedIds (applyOp a .clear) rest

/-- Number of add operations in a run. -/
def countAdds : List SessionOp → ℕ
  | [] => 0
  | .add _ _ _ :: rest => countAdds rest + 1
  | .remove _ :: rest => countAdds rest
  | .clear :: rest => countAdds rest

/-- Fold of scroll events only (used for the scale-stays-clamped property
over arbitrary gesture sequences). -/
def scrollRun (rayO rayD : Vec3) (a : App) : List ScrollDelta → App
  | [] => a
  | d :: rest => scrollRun rayO rayD (handleEvent rayO rayD (.mouseWheel d) a) rest

/-- Concrete object used by witnesses: id 1, resting on the desk surface. -/
def sampleObj1 : DeskObject := ⟨1, .coffee, ⟨2, deskSurfaceY, 2⟩, 0, 1, 0xFFFFFF, 0x1E293B, 1⟩

/-- Concrete object used by witnesses: id 3, two units in front of the origin. -/
def sampleObj3 : DeskObject := ⟨3, .coffee, ⟨0, 0, -2⟩, 0, 1, 0xFFFFFF, 0x1E293B, 1⟩

/-- Concrete object used by witnesses: id 7, five units in front of the origin. -/
def sampleObj7 : DeskObject := ⟨7, .coffee, ⟨0, 0, -5⟩, 0, 1, 0xFFFFFF, 0x1E293B, 1⟩

/-- Concrete application used by witnesses: freshly started with no saved state. -/
def sampleApp0 : App := appNew .noFile

/-- Concrete application used by witnesses: one object on the desk and an
active drag on it. -/
def sampleDragApp : App :=
  { sampleApp0 with
      left_mouse_down := true,
      dragging_object_id := some 1,
      state := { sampleApp0.state with objects := [sampleObj1] } }

/-- Concrete operation run used by witnesses: three adds and one removal. -/
def sampleOps : List SessionOp :=
  [.add .coffee 0 0, .add .coffee (1 / 2) (1 / 2), .remove 1, .add .coffee 0 1]

/- ------------------------------------------------------------------ -/
/- Helper lemmas                                                      -/
/- ------------------------------------------------------------------ -/

lemma f32Epsilon_pos : 0 < f32Epsilon := by
  norm_num [f32Epsilon]

lemma absQ_eq_abs (x : ℚ) : absQ x = |x| := by
  unfold absQ
  split_ifs with h
  · exact (abs_of_neg h).symm
  · exact (abs_of_nonneg (not_lt.mp h)).symm

lemma updateDrag_physics (rayO rayD : Vec3) (a : App) :
    (updateDrag rayO rayD a).physics = a.physics := by
  unfold updateDrag
  cases rayPlaneIntersection rayO rayD ⟨0, deskSurfaceY + 1 / 2, 0⟩ ⟨0, 1, 0⟩ with
  | none => rfl
  | some p => cases a.dragging_object_id <;> rfl

lemma handleEvent_physics (rayO rayD : Vec3) (e : WinEvent) (a : App) :
    (handleEvent rayO rayD e a).physics = a.physics := by
  cases e with
  | mouseInput b p => cases b <;> cases p <;> rfl
  | cursorMoved px py =>
      show (if _ then updateDrag rayO rayD _ else _).physics = _
      split
      · exact updateDrag_physics rayO rayD _
      · rfl
  | mouseWheel delta =>
      show (match a.dragging_object_id with
            | none => a
            | some oid => _).physics = _
      cases a.dragging_object_id with
      | none => rfl
      | some oid =>
          by_cases h : a.shift_pressed = true <;> simp only [handleEvent, h] <;> split <;> rfl
  | keyShift p => rfl
  | keyA rx rz => rfl

lemma applyOp_physics (a : App) (op : SessionOp) :
    (applyOp a op).physics = a.physics := by
  cases op <;> rfl

lemma runOps_physics (ops : List SessionOp) : ∀ a : App, (runOps a ops).physics = a.physics := by
  induction ops with
  | nil => intro a; rfl
  | cons op rest ih =>
      intro a
      show (runOps (applyOp a op) rest).physics = a.physics
      rw [ih (applyOp a op), applyOp_physics]

lemma removeFirst_no_match (oid : ℕ) :
    ∀ l : List DeskObject, (∀ o ∈ l, o.id ≠ oid) → removeFirst oid l = (none, l) := by
  intro l
  induction l with
  | nil => intro _; rfl
  | cons o rest ih =>
      intro h
      have ho : o.id ≠ oid := h o (List.mem_cons_self o rest)
      have hrest := ih fun x hx => h x (List.mem_cons_of_mem o hx)
      simp only [removeFirst, if_neg ho, hrest]

lemma removeFirst_decomp (oid : ℕ) (o : DeskObject) (ho : o.id = oid) :
    ∀ l1 l2 : List DeskObject, (∀ x ∈ l1, x.id ≠ oid) →
      removeFirst oid (l1 ++ o :: l2) = (some o, l1 ++ l2) := by
  intro l1
  induction l1 with
  | nil => intro l2 _; simp only [List.nil_append, removeFirst, if_pos ho]
  | cons x rest ih =>
      intro l2 h
      have hx : x.id ≠ oid := h x (List.mem_cons_self x rest)
      have hrest := ih l2 fun y hy => h y (List.mem_cons_of_mem x hy)
      simp only [List.cons_append, removeFirst, if_neg hx, List.append_eq, hrest]

lemma map_if_id (oid : ℕ) (f : DeskObject → DeskObject) :
    ∀ l : List DeskObject, (∀ o ∈ l, o.id ≠ oid) →
      l.map (fun o => if o.id = oid then f o else o) = l := by
  intro l
  induction l with
  | nil => intro _; rfl
  | cons o rest ih =>
      intro h
      simp only [List.map_cons, if_neg (h o (List.mem_cons_self o rest)),
        ih fun x hx => h x (List.mem_cons_of_mem o hx)]

lemma updateObject_eq_map (oid : ℕ) (f : DeskObject → DeskObject) :
    ∀ l : List DeskObject, (l.map DeskObject.id).Nodup →
      updateObject oid f l = l.map (fun o => if o.id = oid then f o else o) := by
  intro l
  induction l with
  | nil => intro _; rfl
  | cons o rest ih =>
      intro h
      rw [List.map_cons, List.nodup_cons] at h
      by_cases ho : o.id = oid
      · have hrest : ∀ x ∈ rest, x.id ≠ oid := by
          intro x hx hxid
          exact h.1 (List.mem_map.mpr ⟨x, hx, by rw [hxid, ho]⟩)
        simp only [updateObject, if_pos ho, List.map_cons, map_if_id oid f rest hrest]
      · simp only [updateObject, if_neg ho, List.map_cons, ih h.2]

lemma updateObject_map_id (oid : ℕ) (f : DeskObject → DeskObject)
    (hf : ∀ o, (f o).id = o.id) :
    ∀ l : List DeskObject,
      (updateObject oid f l).map DeskObject.id = l.map DeskObject.id := by
  intro l
  induction l with
  | nil => rfl
  | cons o rest ih =>
      by_cases ho : o.id = oid
      · simp only [updateObject, if_pos ho, List.map_cons, hf o]
      · simp only [updateObject, if_neg ho, List.map_cons, ih]

lemma clampQ_mem (x lo hi : ℚ) (h : lo ≤ hi) :
    lo ≤ clampQ x lo hi ∧ clampQ x lo hi ≤ hi := by
  unfold clampQ
  split_ifs with h1 h2
  · exact ⟨le_refl _, h⟩
  · exact ⟨h, le_refl _⟩
  · exact ⟨not_lt.mp h1, not_lt.mp h2⟩

lemma pickLoop_spec (rayO rayD : Vec3) :
    ∀ (l : List DeskObject) (best : Option (ℕ × ℚ)),
      (pickLoop rayO rayD l best = best ∧
        ∀ o ∈ l, isCandidate rayO rayD o →
          ∃ b, best = some b ∧ b.2 ≤ tParam rayO rayD o) ∨
      (∃ o ∈ l, isCandidate rayO rayD o ∧
        pickLoop rayO rayD l best = some (o.id, tParam rayO rayD o) ∧
        beats (tParam rayO rayD o) best ∧
        ∀ o2 ∈ l, isCandidate rayO rayD o2 → tParam rayO rayD o ≤ tParam rayO rayD o2) := by
  intro l
  induction l with
  | nil =>
      intro best
      left
      exact ⟨rfl, by simp⟩
  | cons o rest ih =>
      intro best
      by_cases hc : isCandidate rayO rayD o ∧ beats (tParam rayO rayD o) best
      · have hstep : pickLoop rayO rayD (o :: rest) best
            = pickLoop rayO rayD rest (some (o.id, tParam rayO rayD o)) := by
          simp only [pickLoop, if_pos hc]
        rcases ih (some (o.id, tParam rayO rayD o)) with
          ⟨heq, hall⟩ | ⟨o2, ho2mem, ho2c, heq, hbeats, hmin⟩
        · right
          refine ⟨o, List.mem_cons_self o rest, hc.1, ?_, hc.2, ?_⟩
          · rw [hstep, heq]
          · intro o2 ho2 hco2
            rcases List.mem_cons.mp ho2 with rfl | ho2r
            · exact le_refl _
            · obtain ⟨b, hb, hble⟩ := hall o2 ho2r hco2
              obtain rfl : (o.id, tParam rayO rayD o) = b := Option.some_injective _ hb
              exact hble
        · right
          refine ⟨o2, List.mem_cons_of_mem o ho2mem, ho2c, ?_, ?_, ?_⟩
          · rw [hstep, heq]
          · have hlt : tParam rayO rayD o2 < tParam rayO rayD o := hbeats
            cases best with
            | none => trivial
            | some b =>
                have hlt2 : tParam rayO rayD o < b.2 := hc.2
                exact lt_trans hlt hlt2
          · intro o3 ho3 hco3
            rcases List.mem_cons.mp ho3 with rfl | ho3r
            · exact le_of_lt hbeats
            · exact hmin o3 ho3r hco3
      · have hstep : pickLoop rayO rayD (o :: rest) best = pickLoop rayO rayD rest best := by
          simp only [pickLoop, if_neg hc]
        rcases ih best with ⟨heq, hall⟩ | ⟨o2, ho2mem, ho2c, heq, hbeats, hmin⟩
        · left
          refine ⟨by rw [hstep, heq], ?_⟩
          intro o2 ho2 hco2
          rcases List.mem_cons.mp ho2 with rfl | ho2r
          · have hnb : ¬ beats (tParam rayO rayD o2) best := fun hb => hc ⟨hco2, hb⟩
            cases best with
            | none => exact absurd trivial hnb
            | some b => exact ⟨b, rfl, not_lt.mp fun hlt => hnb hlt⟩
          · exact hall o2 ho2r hco2
        · right
          refine ⟨o2, List.mem_cons_of_mem o ho2mem, ho2c, by rw [hstep, heq], hbeats, ?_⟩
          intro o3 ho3 hco3
          rcases List.mem_cons.mp ho3 with rfl | ho3r
          · have hnb : ¬ beats (tParam rayO rayD o3) best := fun hb => hc ⟨hco3, hb⟩
            cases best with
            | none => exact absurd trivial hnb
            | some b =>
                have h1 : b.2 ≤ tParam rayO rayD o3 := not_lt.mp fun hlt => hnb hlt
                have h2 : tParam rayO rayD o2 < b.2 := hbeats
                exact le_of_lt (lt_of_lt_of_le h2 h1)
          · exact hmin o3 ho3r hco3

lemma removeFirst_sublist (oid : ℕ) :
    ∀ l : List DeskObject, ((removeFirst oid l).2).Sublist l := by
  intro l
  induction l with
  | nil => exact List.Sublist.refl _
  | cons o rest ih =>
      simp only [removeFirst]
      by_cases h : o.id = oid
      · rw [if_pos h]
        exact List.sublist_cons_self o rest
      · rw [if_neg h]
        exact List.Sublist.cons₂ o ih

lemma applyOp_add_objects (a : App) (t : ObjectType) (rx rz : ℚ) :
    (applyOp a (.add t rx rz)).state.objects =
      a.state.objects ++
        [DeskObject.new a.state.next_object_id t ⟨rx * 4 - 2, deskSurfaceY, rz * 3 - 3 / 2⟩] :=
  rfl

lemma applyOp_next (a : App) (t : ObjectType) (rx rz : ℚ) (oid : ℕ) :
    (applyOp a (.add t rx rz)).state.next_object_id
        = (a.state.next_object_id + 1) % u64Size ∧
    (applyOp a (.remove oid)).state.next_object_id = a.state.next_object_id ∧
    (applyOp a .clear).state.next_object_id = a.state.next_object_id :=
  ⟨rfl, rfl, rfl⟩

lemma countAdds_cons_add (t : ObjectType) (rx rz : ℚ) (rest : List SessionOp) :
    countAdds (.add t rx rz :: rest) = countAdds rest + 1 := rfl

lemma assigned_lb :
    ∀ (ops : List SessionOp) (a : App),
      a.state.next_object_id + countAdds ops < u64Size →
      ∀ i ∈ assignedIds a ops, a.state.next_object_id ≤ i := by
  intro ops
  induction ops with
  | nil => intro a _ i hi; cases hi
  | cons op rest ih =>
      intro a hof i hi
      cases op with
      | add t rx rz =>
          rw [countAdds_cons_add] at hof
          have hmod : (a.state.next_object_id + 1) % u64Size = a.state.next_object_id + 1 :=
            Nat.mod_eq_of_lt (by omega)
          have hnext : (applyOp a (.add t rx rz)).state.next_object_id
              = a.state.next_object_id + 1 := by
            rw [(applyOp_next a t rx rz 0).1, hmod]
          rcases List.mem_cons.mp hi with rfl | hir
          · exact le_refl _
          · have hof2 : (applyOp a (.add t rx rz)).state.next_object_id + countAdds rest
                < u64Size := by
              rw [hnext]
              omega
            have := ih (applyOp a (.add t rx rz)) hof2 i hir
            rw [hnext] at this
            omega
      | remove oid =>
          exact ih (applyOp a (.remove oid)) hof i hi
      | clear =>
          exact ih (applyOp a .clear) hof i hi

lemma assigned_pairwise :
    ∀ (ops : List SessionOp) (a : App),
      a.state.next_object_id + countAdds ops < u64Size →
      List.Pairwise (· < ·) (assignedIds a ops) := by
  intro ops
  induction ops with
  | nil => intro a _; exact List.Pairwise.nil
  | cons op rest ih =>
      intro a hof
      cases op with
      | add t rx rz =>
          rw [countAdds_cons_add] at hof
          have hmod : (a.state.next_object_id + 1) % u64Size = a.state.next_object_id + 1 :=
            Nat.mod_eq_of_lt (by omega)
          have hnext : (applyOp a (.add t rx rz)).state.next_object_id
              = a.state.next_object_id + 1 := by
            rw [(applyOp_next a t rx rz 0).1, hmod]
          have hof2 : (applyOp a (.add t rx rz)).state.next_object_id + countAdds rest
              < u64Size := by
            rw [hnext]
            omega
          refine List.pairwise_cons.mpr ⟨?_, ih (applyOp a (.add t rx rz)) hof2⟩
          intro i hi
          have := assigned_lb rest (applyOp a (.add t rx rz)) hof2 i hi
          rw [hnext] at this
          omega
      | remove oid =>
          exact ih (applyOp a (.remove oid)) hof
      | clear =>
          exact ih (applyOp a .clear) hof

lemma run_inv :
    ∀ (ops : List SessionOp) (a : App),
      (∀ o ∈ a.state.objects, o.id < a.state.next_object_id) →
      (a.state.objects.map DeskObject.id).Nodup →
      a.state.next_object_id + countAdds ops < u64Size →
      ((runOps a ops).state.objects.map DeskObject.id).Nodup := by
  intro ops
  induction ops with
  | nil => intro a _ hn _; exact hn
  | cons op rest ih =>
      intro a hb hn hof
      cases op with
      | add t rx rz =>
          rw [countAdds_cons_add] at hof
          have hmod : (a.state.next_object_id + 1) % u64Size = a.state.next_object_id + 1 :=
            Nat.mod_eq_of_lt (by omega)
          have hnext : (applyOp a (.add t rx rz)).state.next_object_id
              = a.state.next_object_id + 1 := by
            rw [(applyOp_next a t rx rz 0).1, hmod]
          have hb2 : ∀ o ∈ (applyOp a (.add t rx rz)).state.objects,
              o.id < (applyOp a (.add t rx rz)).state.next_object_id := by
            intro o ho
            rw [applyOp_add_objects] at ho
            rw [hnext]
            rcases List.mem_append.mp ho with hol | hor
            · exact lt_trans (hb o hol) (Nat.lt_succ_self _)
            · rcases List.mem_singleton.mp hor with rfl
              exact Nat.lt_succ_self _
          have hn2 : ((applyOp a (.add t rx rz)).state.objects.map DeskObject.id).Nodup := by
            rw [applyOp_add_objects, List.map_append]
            refine List.Nodup.append hn (List.nodup_singleton _) ?_
            intro i hil hir
            rcases List.mem_singleton.mp hir with rfl
            obtain ⟨o, hol, hoid⟩ := List.mem_map.mp hil
            have := hb o hol
            rw [hoid] at this
            exact absurd this (lt_irrefl _)
          have hof2 : (applyOp a (.add t rx rz)).state.next_object_id + countAdds rest
              < u64Size := by
            rw [hnext]
            omega
          exact ih (applyOp a (.add t rx rz)) hb2 hn2 hof2
      | remove oid =>
          have hsub :
              ((applyOp a (.remove oid)).state.objects).Sublist a.state.objects :=
            removeFirst_sublist oid a.state.objects
          have hb2 : ∀ o ∈ (applyOp a (.remove oid)).state.objects,
              o.id < (applyOp a (.remove oid)).state.next_object_id := by
            intro o ho
            exact hb o (hsub.mem ho)
          have hn2 : ((applyOp a (.remove oid)).state.objects.map DeskObject.id).Nodup :=
            List.Nodup.sublist (List.Sublist.map DeskObject.id hsub) hn
          exact ih (applyOp a (.remove oid)) hb2 hn2 hof
      | clear =>
          have hb2 : ∀ o ∈ (applyOp a .clear).state.objects,
              o.id < (applyOp a .clear).state.next_object_id := by
            intro o ho
            cases ho
          exact ih (applyOp a .clear) hb2 List.Pairwise.nil hof

/- ------------------------------------------------------------------ -/
/- Claim theorems (first batch)                                       -/
/- ------------------------------------------------------------------ -/

/-- C5: over any session run of add, remove and clear operations, the ids
handed out by next_id are strictly increasing in order of assignment (so an
id is never assigned twice and never reused after a removal or clear), the
ids of the live object set stay pairwise distinct, and every assigned id is
strictly above every id live at the start of the run. The hypotheses say
the starting state is consistent and the u64 counter does not wrap during
the run. -/
theorem ids_assigned_monotone (a : App) (ops : List SessionOp)
    (hb : ∀ o ∈ a.state.objects, o.id < a.state.next_object_id)
    (hn : (a.state.objects.map DeskObject.id).Nodup)
    (hof : a.state.next_object_id + countAdds ops < u64Size) :
    List.Pairwise (· < ·) (assignedIds a ops) ∧
    ((runOps a ops).state.objects.map DeskObject.id).Nodup ∧
    (∀ i ∈ assignedIds a ops, ∀ o ∈ a.state.objects, o.id < i) :=
  ⟨assigned_pairwise ops a hof,
   run_inv ops a hb hn hof,
   fun i hi o ho => lt_of_lt_of_le (hb o ho) (assigned_lb ops a hof i hi)⟩

/-- C5 witness: from a fresh start, the run add, add, remove 1, add hands
out the strictly increasing ids 1, 2, 3 and leaves distinct live ids. -/
theorem ids_assigned_monotone_witness :
    List.Pairwise (· < ·) (assignedIds sampleApp0 sampleOps) ∧
    ((runOps sampleApp0 sampleOps).state.objects.map DeskObject.id).Nodup ∧
    (∀ i ∈ assignedIds sampleApp0 sampleOps, ∀ o ∈ sampleApp0.state.objects,
      DeskObject.id o < i) :=
  ids_assigned_monotone sampleApp0 sampleOps (by decide) (by decide) (by decide)

/-- C1: picking skips objects behind the ray origin, a candidate is exactly
an object whose perpendicular distance to the ray at its closest-approach
parameter t is below collision_radius times 1.5 with a non-negative t, the
candidate with the smallest t wins, and none is returned when no object is
a candidate. -/
theorem pick_object_correct (rayO rayD : Vec3) (objs : List DeskObject)
    (hunit : rayD.normSq = 1) :
    (tryPickObject rayO rayD objs = none ↔ ∀ o ∈ objs, ¬ isCandidate rayO rayD o) ∧
    (∀ i, tryPickObject rayO rayD objs = some i →
      ∃ o ∈ objs, o.id = i ∧ isCandidate rayO rayD o ∧
        ∀ o2 ∈ objs, isCandidate rayO rayD o2 →
          tParam rayO rayD o ≤ tParam rayO rayD o2) := by
  constructor
  · constructor
    · intro hnone o ho hc
      rcases pickLoop_spec rayO rayD objs none with ⟨_, hall⟩ | ⟨o2, _, _, heq, _, _⟩
      · obtain ⟨b, hb, _⟩ := hall o ho hc
        cases hb
      · unfold tryPickObject at hnone
        rw [heq] at hnone
        simp at hnone
    · intro hno
      rcases pickLoop_spec rayO rayD objs none with ⟨heq, _⟩ | ⟨o, homem, hoc, _, _, _⟩
      · unfold tryPickObject
        rw [heq]
        rfl
      · exact absurd hoc (hno o homem)
  · intro i hi
    rcases pickLoop_spec rayO rayD objs none with ⟨heq, _⟩ | ⟨o, homem, hoc, heq, _, hmin⟩
    · unfold tryPickObject at hi
      rw [heq] at hi
      cases hi
    · unfold tryPickObject at hi
      rw [heq] at hi
      have hid : o.id = i := by simpa using hi
      exact ⟨o, homem, hid, hoc, hmin⟩

/-- C1 witness: with a unit ray looking down the negative z axis at two
objects five and two units away, the picked object is the nearest candidate
(id 3). -/
theorem pick_object_correct_witness :
    ∃ o ∈ [sampleObj7, sampleObj3], DeskObject.id o = 3 ∧
      isCandidate ⟨0, 0, 0⟩ ⟨0, 0, -1⟩ o ∧
      ∀ o2 ∈ [sampleObj7, sampleObj3], isCandidate ⟨0, 0, 0⟩ ⟨0, 0, -1⟩ o2 →
        tParam ⟨0, 0, 0⟩ ⟨0, 0, -1⟩ o ≤ tParam ⟨0, 0, 0⟩ ⟨0, 0, -1⟩ o2 :=
  (pick_object_correct ⟨0, 0, 0⟩ ⟨0, 0, -1⟩ [sampleObj7, sampleObj3]
      (by norm_num [Vec3.normSq])).2 3
    (by norm_num [tryPickObject, pickLoop, isCandidate, pickHit, beats, tParam,
        perpDistSq, Vec3.dot, Vec3.sub, Vec3.add, Vec3.smul, Vec3.normSq,
        sampleObj7, sampleObj3])

/-- C2: ray_plane_intersection returns none exactly when the dot product of
direction and normal is within floating epsilon of zero or the solved
parameter t is negative; whenever it returns some p, the point p lies
exactly on the plane and equals the origin advanced along the direction by
a non-negative parameter. -/
theorem ray_plane_intersection_correct (o d pp n : Vec3) :
    (rayPlaneIntersection o d pp n = none ↔
      |d.dot n| < f32Epsilon ∨ ((pp.sub o).dot n) / (d.dot n) < 0) ∧
    (∀ p, rayPlaneIntersection o d pp n = some p →
      (p.sub pp).dot n = 0 ∧ ∃ s, 0 ≤ s ∧ p = o.add (Vec3.smul s d)) := by
  constructor
  · simp only [rayPlaneIntersection, absQ_eq_abs]
    split_ifs with h1 h2
    · exact iff_of_true rfl (Or.inl h1)
    · exact iff_of_true rfl (Or.inr h2)
    · refine iff_of_false (by simp) ?_
      rintro (h | h)
      · exact h1 h
      · exact h2 h
  · intro p hp
    simp only [rayPlaneIntersection, absQ_eq_abs] at hp
    by_cases h1 : |d.dot n| < f32Epsilon
    · rw [if_pos h1] at hp
      cases hp
    · rw [if_neg h1] at hp
      by_cases h2 : ((pp.sub o).dot n) / (d.dot n) < 0
      · rw [if_pos h2] at hp
        cases hp
      · rw [if_neg h2] at hp
        have hpd : o.add (Vec3.smul (((pp.sub o).dot n) / (d.dot n)) d) = p :=
          Option.some_injective _ hp
        have hd : d.dot n ≠ 0 := by
          intro h0
          rw [h0] at h1
          exact h1 (by simpa using f32Epsilon_pos)
        subst hpd
        refine ⟨?_, ⟨((pp.sub o).dot n) / (d.dot n), not_lt.mp h2, rfl⟩⟩
        simp only [Vec3.add, Vec3.sub, Vec3.smul, Vec3.dot] at hd ⊢
        field_simp
        ring

/-- C2 witness: the ray from (0,5,0) pointing straight down meets the lifted
drag plane exactly on the plane, a non-negative advance along the ray. -/
theorem ray_plane_intersection_correct_witness :
    ((⟨0, 3 / 5, 0⟩ : Vec3).sub ⟨0, 3 / 5, 0⟩).dot ⟨0, 1, 0⟩ = 0 ∧
    ∃ s, 0 ≤ s ∧ (⟨0, 3 / 5, 0⟩ : Vec3) = Vec3.add ⟨0, 5, 0⟩ (Vec3.smul s ⟨0, -1, 0⟩) :=
  (ray_plane_intersection_correct ⟨0, 5, 0⟩ ⟨0, -1, 0⟩ ⟨0, 3 / 5, 0⟩ ⟨0, 1, 0⟩).2
    ⟨0, 3 / 5, 0⟩
    (by norm_num [rayPlaneIntersection, absQ, f32Epsilon, Vec3.dot, Vec3.sub, Vec3.add, Vec3.smul])

/-- C6 counterexample: at startup from a persisted state whose multiplier
pair is (1, 2), the physics engine does not receive that pair — only the
radius multiplier is copied (main.rs line 273), the height multiplier keeps
the constructor default. -/
theorem startup_multiplier_cex :
    ¬ ((appNew (.parsed ⟨1, [], 1, 2, 5⟩)).physics.collision_radius_multiplier =
          (AppState.load (.parsed ⟨1, [], 1, 2, 5⟩)).collision_radius_multiplier ∧
       (appNew (.parsed ⟨1, [], 1, 2, 5⟩)).physics.collision_height_multiplier =
          (AppState.load (.parsed ⟨1, [], 1, 2, 5⟩)).collision_height_multiplier) := by
  decide

/-- C6 amended: at startup the physics engine's collision_radius_multiplier
is set to the loaded persisted value, while collision_height_multiplier
keeps the constructor default independent of the persisted state; neither
is modified again by any event or session operation. -/
theorem startup_multiplier_amended :
    (∀ inp : LoadInput,
      (appNew inp).physics.collision_radius_multiplier =
        (AppState.load inp).collision_radius_multiplier ∧
      (appNew inp).physics.collision_height_multiplier =
        PhysicsEngine.new.collision_height_multiplier) ∧
    (∀ rayO rayD e a, (handleEvent rayO rayD e a).physics = a.physics) ∧
    (∀ a ops, (runOps a ops).physics = a.physics) :=
  ⟨fun _ => ⟨rfl, rfl⟩, handleEvent_physics, fun a ops => runOps_physics ops a⟩

/-- C7: every failure path of AppState::load falls back to the default
state — empty object list, both multipliers 1, next_object_id 1 — and a
successful parse is returned unchanged. -/
theorem load_fallback_default :
    (∀ s, AppState.load (.parsed s) = s) ∧
    AppState.load .noDataDir = AppState.defaultState ∧
    AppState.load .noFile = AppState.defaultState ∧
    AppState.load .readError = AppState.defaultState ∧
    AppState.load .parseError = AppState.defaultState ∧
    AppState.defaultState =
      { version := 1, objects := [], collision_radius_multiplier := 1,
        collision_height_multiplier := 1, next_object_id := 1 } :=
  ⟨fun _ => rfl, rfl, rfl, rfl, rfl, rfl⟩

/-- C8: the drag target is a single optional id, so at most one object is a
drag target at any time, and every left-button release event clears it
regardless of the prior state. -/
theorem pointer_release_clears_drag :
    (∀ rayO rayD (a : App),
        (handleEvent rayO rayD (.mouseInput .left false) a).dragging_object_id = none) ∧
    (∀ (a : App) (i j : ℕ),
        a.dragging_object_id = some i → a.dragging_object_id = some j → i = j) := by
  refine ⟨fun rayO rayD a => rfl, fun a i j hi hj => ?_⟩
  rw [hi] at hj
  exact Option.some_injective _ hj

/-- C8 witness: releasing the left button on an application that is dragging
object 1 clears the drag target. -/
theorem pointer_release_clears_drag_witness :
    (handleEvent ⟨0, 0, 0⟩ ⟨0, 0, -1⟩ (.mouseInput .left false) sampleDragApp).dragging_object_id
        = none ∧
    (1 : ℕ) = 1 :=
  ⟨pointer_release_clears_drag.1 ⟨0, 0, 0⟩ ⟨0, 0, -1⟩ sampleDragApp,
   pointer_release_clears_drag.2 sampleDragApp 1 1 (by decide) (by decide)⟩

/-- C9: removing an absent id returns none and leaves the state untouched;
removing a present id removes exactly the first object carrying it, returns
that object, and keeps every other object unchanged in order. -/
theorem remove_object_first_match (s : AppState) (oid : ℕ) :
    ((∀ o ∈ s.objects, o.id ≠ oid) → s.removeObject oid = (none, s)) ∧
    (∀ l1 o l2, s.objects = l1 ++ o :: l2 → o.id = oid → (∀ x ∈ l1, x.id ≠ oid) →
      s.removeObject oid = (some o, { s with objects := l1 ++ l2 })) := by
  constructor
  · intro h
    simp only [AppState.removeObject, removeFirst_no_match oid s.objects h]
  · intro l1 o l2 hobj ho hl1
    simp only [AppState.removeObject, hobj, removeFirst_decomp oid o ho l1 l2 hl1]

/-- C9 witness: on the two-object list with ids 7 and 3, removing id 7
returns the first object and keeps the rest; removing the absent id 100
returns none and changes nothing. -/
theorem remove_object_first_match_witness :
    ({ AppState.defaultState with objects := [sampleObj7, sampleObj3] } : AppState).removeObject 7
        = (some sampleObj7,
           { ({ AppState.defaultState with objects := [sampleObj7, sampleObj3] } : AppState) with
               objects := [] ++ [sampleObj3] }) ∧
    ({ AppState.defaultState with objects := [sampleObj7, sampleObj3] } : AppState).removeObject 100
        = (none, { AppState.defaultState with objects := [sampleObj7, sampleObj3] }) :=
  ⟨(remove_object_first_match { AppState.defaultState with objects := [sampleObj7, sampleObj3] } 7).2
      [] sampleObj7 [sampleObj3] (by decide) (by decide) (by decide),
   (remove_object_first_match { AppState.defaultState with objects := [sampleObj7, sampleObj3] } 100).1
      (by decide)⟩

lemma cursor_step (rayO rayD : Vec3) (px py : ℚ) (a : App) :
    handleEvent rayO rayD (.cursorMoved px py) a =
      if a.left_mouse_down && a.dragging_object_id.isSome then
        updateDrag rayO rayD { a with mouse_position := (px, py) }
      else { a with mouse_position := (px, py) } := rfl

lemma updateDrag_objects_some (rayO rayD : Vec3) (a : App) (oid : ℕ) (p : Vec3)
    (hdrag : a.dragging_object_id = some oid)
    (hint : rayPlaneIntersection rayO rayD ⟨0, deskSurfaceY + 1 / 2, 0⟩ ⟨0, 1, 0⟩ = some p) :
    (updateDrag rayO rayD a).state.objects =
      updateObject oid (fun o =>
        { o with position := ⟨clampQ p.x (-(9 / 2)) (9 / 2), o.position.y, clampQ p.z (-3) 3⟩ })
        a.state.objects := by
  unfold updateDrag
  rw [hint, hdrag]

lemma updateDrag_none_ray (rayO rayD : Vec3) (a : App)
    (hint : rayPlaneIntersection rayO rayD ⟨0, deskSurfaceY + 1 / 2, 0⟩ ⟨0, 1, 0⟩ = none) :
    updateDrag rayO rayD a = a := by
  unfold updateDrag
  rw [hint]

lemma wheel_objects (rayO rayD : Vec3) (delta : ScrollDelta) (a : App) (oid : ℕ)
    (hdrag : a.dragging_object_id = some oid) (hshift : a.shift_pressed = true) :
    (handleEvent rayO rayD (.mouseWheel delta) a).state.objects =
      updateObject oid
        (fun o => { o with scale := clampQ (o.scale + scrollOf delta * (1 / 10)) (3 / 10) 3 })
        a.state.objects := by
  simp only [handleEvent, hdrag, hshift, if_true]

lemma wheel_control (rayO rayD : Vec3) (delta : ScrollDelta) (a : App) :
    (handleEvent rayO rayD (.mouseWheel delta) a).dragging_object_id = a.dragging_object_id ∧
    (handleEvent rayO rayD (.mouseWheel delta) a).shift_pressed = a.shift_pressed := by
  cases hd : a.dragging_object_id with
  | none => simp [handleEvent, hd]
  | some oid =>
      by_cases hs : a.shift_pressed = true
      · simp only [handleEvent, hd, if_pos hs]
        constructor <;> trivial
      · simp only [handleEvent, hd, if_neg hs]
        constructor <;> trivial

lemma wheel_ids (rayO rayD : Vec3) (delta : ScrollDelta) (a : App) :
    (handleEvent rayO rayD (.mouseWheel delta) a).state.objects.map DeskObject.id =
      a.state.objects.map DeskObject.id := by
  cases hd : a.dragging_object_id with
  | none => simp [handleEvent, hd]
  | some oid =>
      by_cases hs : a.shift_pressed = true
      · simp only [handleEvent, hd, if_pos hs]
        apply updateObject_map_id
        intro o
        rfl
      · simp only [handleEvent, hd, if_neg hs]
        apply updateObject_map_id
        intro o
        rfl

lemma wheel_scale_range (rayO rayD : Vec3) (delta : ScrollDelta) (a : App) (oid : ℕ)
    (hnodup : (a.state.objects.map DeskObject.id).Nodup)
    (hdrag : a.dragging_object_id = some oid) (hshift : a.shift_pressed = true) :
    ∀ o ∈ (handleEvent rayO rayD (.mouseWheel delta) a).state.objects, o.id = oid →
      3 / 10 ≤ o.scale ∧ o.scale ≤ 3 := by
  intro o2 hmem hid
  rw [wheel_objects rayO rayD delta a oid hdrag hshift,
    updateObject_eq_map oid _ a.state.objects hnodup] at hmem
  obtain ⟨o, ho, rfl⟩ := List.mem_map.mp hmem
  by_cases h : o.id = oid
  · rw [if_pos h]
    exact clampQ_mem _ _ _ (by norm_num)
  · rw [if_neg h] at hid
    exact absurd hid h

lemma scrollRun_scale (rayO rayD : Vec3) (oid : ℕ) :
    ∀ (deltas : List ScrollDelta) (a : App), deltas ≠ [] →
      (a.state.objects.map DeskObject.id).Nodup →
      a.dragging_object_id = some oid → a.shift_pressed = true →
      ∀ o ∈ (scrollRun rayO rayD a deltas).state.objects, o.id = oid →
        3 / 10 ≤ o.scale ∧ o.scale ≤ 3 := by
  intro deltas
  induction deltas with
  | nil => intro a h; exact absurd rfl h
  | cons d rest ih =>
      intro a _ hnodup hdrag hshift
      have hstep : scrollRun rayO rayD a (d :: rest)
          = scrollRun rayO rayD (handleEvent rayO rayD (.mouseWheel d) a) rest := rfl
      have hnodup2 : ((handleEvent rayO rayD (.mouseWheel d) a).state.objects.map
          DeskObject.id).Nodup := by
        rw [wheel_ids]
        exact hnodup
      have hdrag2 : (handleEvent rayO rayD (.mouseWheel d) a).dragging_object_id = some oid := by
        rw [(wheel_control rayO rayD d a).1, hdrag]
      have hshift2 : (handleEvent rayO rayD (.mouseWheel d) a).shift_pressed = true := by
        rw [(wheel_control rayO rayD d a).2, hshift]
      cases rest with
      | nil =>
          rw [hstep]
          exact wheel_scale_range rayO rayD d a oid hnodup hdrag hshift
      | cons d2 rest2 =>
          rw [hstep]
          exact ih (handleEvent rayO rayD (.mouseWheel d) a) (by simp) hnodup2 hdrag2 hshift2

/-- C3: on a pointer-move event with an active drag whose ray meets the
lifted drag plane, the drag target's x and z are set to the clamped
intersection point while its y and every other field of every object stay
unchanged; with no drag target, or with a parallel or behind-the-origin
ray, the object set does not change at all. -/
theorem pointer_move_drag_correct (rayO rayD : Vec3) (px py : ℚ) (a : App)
    (hinv : a.dragging_object_id.isSome = true → a.left_mouse_down = true)
    (hnodup : (a.state.objects.map DeskObject.id).Nodup) :
    (∀ oid p, a.dragging_object_id = some oid →
      rayPlaneIntersection rayO rayD ⟨0, deskSurfaceY + 1 / 2, 0⟩ ⟨0, 1, 0⟩ = some p →
      (handleEvent rayO rayD (.cursorMoved px py) a).state.objects =
        a.state.objects.map (fun o =>
          if o.id = oid then
            { o with position := ⟨clampQ p.x (-(9 / 2)) (9 / 2), o.position.y, clampQ p.z (-3) 3⟩ }
          else o)) ∧
    (a.dragging_object_id = none →
      (handleEvent rayO rayD (.cursorMoved px py) a).state.objects = a.state.objects) ∧
    (rayPlaneIntersection rayO rayD ⟨0, deskSurfaceY + 1 / 2, 0⟩ ⟨0, 1, 0⟩ = none →
      (handleEvent rayO rayD (.cursorMoved px py) a).state.objects = a.state.objects) := by
  refine ⟨?_, ?_, ?_⟩
  · intro oid p hdrag hint
    have hlmb : a.left_mouse_down = true := hinv (by rw [hdrag]; rfl)
    have hcond : (a.left_mouse_down && a.dragging_object_id.isSome) = true := by
      rw [hlmb, hdrag]
      rfl
    rw [cursor_step, if_pos hcond]
    exact (updateDrag_objects_some rayO rayD { a with mouse_position := (px, py) } oid p
        hdrag hint).trans (updateObject_eq_map oid _ a.state.objects hnodup)
  · intro hdrag
    have hncond : ¬ ((a.left_mouse_down && a.dragging_object_id.isSome) = true) := by
      rw [hdrag]
      simp
    rw [cursor_step, if_neg hncond]
  · intro hint
    by_cases hc : (a.left_mouse_down && a.dragging_object_id.isSome) = true
    · rw [cursor_step, if_pos hc,
        updateDrag_none_ray rayO rayD { a with mouse_position := (px, py) } hint]
    · rw [cursor_step, if_neg hc]

/-- C3 witness: dragging object 1 with the downward ray from (0,5,0), the
pointer-move event moves that object to the clamped plane intersection. -/
theorem pointer_move_drag_correct_witness :
    (handleEvent ⟨0, 5, 0⟩ ⟨0, -1, 0⟩ (.cursorMoved 10 10) sampleDragApp).state.objects =
      sampleDragApp.state.objects.map (fun o =>
        if o.id = 1 then
          { o with position :=
              ⟨clampQ (0 : ℚ) (-(9 / 2)) (9 / 2), o.position.y, clampQ (0 : ℚ) (-3) 3⟩ }
        else o) :=
  (pointer_move_drag_correct ⟨0, 5, 0⟩ ⟨0, -1, 0⟩ 10 10 sampleDragApp
      (fun _ => rfl) (by decide)).1 1 ⟨0, 3 / 5, 0⟩ rfl
    (by norm_num [rayPlaneIntersection, absQ, f32Epsilon, deskSurfaceY,
        Vec3.dot, Vec3.sub, Vec3.add, Vec3.smul])

/-- C4: a scroll event with an active drag and shift held rescales exactly
the drag target with the result clamped into the scale range; without shift
it adds a yaw rotation proportional to the delta to exactly the drag
target; without an active drag the application is unchanged; and over any
non-empty sequence of shift-scroll events the target's scale stays inside
the range. -/
theorem scroll_gesture_correct (rayO rayD : Vec3) (a : App) (delta : ScrollDelta)
    (hnodup : (a.state.objects.map DeskObject.id).Nodup) :
    (∀ oid, a.dragging_object_id = some oid → a.shift_pressed = true →
      (handleEvent rayO rayD (.mouseWheel delta) a).state.objects =
        a.state.objects.map (fun o =>
          if o.id = oid then
            { o with scale := clampQ (o.scale + scrollOf delta * (1 / 10)) (3 / 10) 3 }
          else o) ∧
      ∀ o ∈ (handleEvent rayO rayD (.mouseWheel delta) a).state.objects,
        o.id = oid → 3 / 10 ≤ o.scale ∧ o.scale ≤ 3) ∧
    (∀ oid, a.dragging_object_id = some oid → a.shift_pressed = false →
      (handleEvent rayO rayD (.mouseWheel delta) a).state.objects =
        a.state.objects.map (fun o =>
          if o.id = oid then
            { o with rotation := scrollOf delta * (1 / 5) + o.rotation }
          else o)) ∧
    (a.dragging_object_id = none → handleEvent rayO rayD (.mouseWheel delta) a = a) ∧
    (∀ oid deltas, deltas ≠ [] → a.dragging_object_id = some oid → a.shift_pressed = true →
      ∀ o ∈ (scrollRun rayO rayD a deltas).state.objects,
        o.id = oid → 3 / 10 ≤ o.scale ∧ o.scale ≤ 3) := by
  refine ⟨?_, ?_, ?_, ?_⟩
  · intro oid hdrag hshift
    refine ⟨?_, wheel_scale_range rayO rayD delta a oid hnodup hdrag hshift⟩
    rw [wheel_objects rayO rayD delta a oid hdrag hshift]
    exact updateObject_eq_map oid _ a.state.objects hnodup
  · intro oid hdrag hshift
    have hns : ¬ a.shift_pressed = true := by
      rw [hshift]
      exact Bool.false_ne_true
    simp only [handleEvent, hdrag, if_neg hns]
    exact updateObject_eq_map oid _ a.state.objects hnodup
  · intro hdrag
    simp [handleEvent, hdrag]
  · intro oid deltas hne hdrag hshift
    exact scrollRun_scale rayO rayD oid deltas a hne hnodup hdrag hshift

/-- C4 witness: a huge shift-scroll on the dragged object 1 rescales only
that object with the clamped result, and the sequence bound holds for the
one-event sequence. -/
theorem scroll_gesture_correct_witness :
    (handleEvent ⟨0, 5, 0⟩ ⟨0, -1, 0⟩ (.mouseWheel (.line 100))
        { sampleDragApp with shift_pressed := true }).state.objects =
      ({ sampleDragApp with shift_pressed := true } : App).state.objects.map (fun o =>
        if o.id = 1 then
          { o with scale := clampQ (o.scale + scrollOf (.line 100) * (1 / 10)) (3 / 10) 3 }
        else o) ∧
    ∀ o ∈ (handleEvent ⟨0, 5, 0⟩ ⟨0, -1, 0⟩ (.mouseWheel (.line 100))
        { sampleDragApp with shift_pressed := true }).state.objects,
      DeskObject.id o = 1 → 3 / 10 ≤ DeskObject.scale o ∧ DeskObject.scale o ≤ 3 :=
  (scroll_gesture_correct ⟨0, 5, 0⟩ ⟨0, -1, 0⟩
      { sampleDragApp with shift_pressed := true } (.line 100) (by decide)).1 1
    (by decide) (by decide)

/-- C10: clear_objects empties the object list, leaves the counter, both
multipliers and the version unchanged, and the next id handed out after the
clear is the one that would have been handed out without it. -/
theorem clear_objects_frame (s : AppState) :
    (s.clearObjects).objects = [] ∧
    (s.clearObjects).next_object_id = s.next_object_id ∧
    (s.clearObjects).collision_radius_multiplier = s.collision_radius_multiplier ∧
    (s.clearObjects).collision_height_multiplier = s.collision_height_multiplier ∧
    (s.clearObjects).version = s.version ∧
    ((s.clearObjects).nextId).1 = (s.nextId).1 :=
  ⟨rfl, rfl, rfl, rfl, rfl, rfl⟩

end FocusDesk
